import Mathlib

/-!
Shallow embedding of the ToneSugar audio-analysis pipeline
(`analyzer/handler.py` and `app/db_dynamo.py`).

Python values are modelled by the inductive `PyVal` (floats as rationals,
`Decimal(str(x))` as `pDecimal`).  External collaborators (S3, DynamoDB,
mutagen, soundfile, librosa) are modelled by environments whose fields are
`Except String _` values: `.error m` means the call raises an exception with
message `m`.  Every externally visible call is recorded in an effect trace
(`List Eff`) so that claims about which I/O happens can be stated.
-/

namespace ToneSugar

mutual

/-- Python values as they flow through the metadata layer.  A `float` carries
its rational value; `Decimal(str(x))` is modelled by `pDecimal` carrying the
same value. -/
inductive PyVal : Type where
  | pFloat : Rat → PyVal
  | pDecimal : Rat → PyVal
  | pInt : Int → PyVal
  | pStr : String → PyVal
  | pBool : Bool → PyVal
  | pNone : PyVal
  | pDict : PyKVs → PyVal
  | pList : PyVals → PyVal
  | pTuple : PyVals → PyVal
deriving DecidableEq

inductive PyKVs : Type where
  | nil : PyKVs
  | cons : PyVal → PyVal → PyKVs → PyKVs
deriving DecidableEq

inductive PyVals : Type where
  | nil : PyVals
  | cons : PyVal → PyVals → PyVals
deriving DecidableEq

end

/-- Build a Python dict body from an association list with string keys. -/
def kvsOf : List (String × PyVal) → PyKVs
  | [] => .nil
  | (k, v) :: t => .cons (.pStr k) v (kvsOf t)

mutual

/-- Does a Python value contain a `float` anywhere (dict keys included)? -/
def PyVal.hasFloat : PyVal → Bool
  | .pFloat _ => true
  | .pDict kvs => kvs.hasFloat
  | .pList vs => vs.hasFloat
  | .pTuple vs => vs.hasFloat
  | _ => false

def PyKVs.hasFloat : PyKVs → Bool
  | .nil => false
  | .cons k v rest => k.hasFloat || v.hasFloat || rest.hasFloat

def PyVals.hasFloat : PyVals → Bool
  | .nil => false
  | .cons v rest => v.hasFloat || rest.hasFloat

end

mutual

/-- No dict key reachable through values/elements contains a float. -/
def PyVal.floatFreeKeys : PyVal → Bool
  | .pFloat _ => true
  | .pDict kvs => kvs.floatFreeKeys
  | .pList vs => vs.floatFreeKeys
  | .pTuple vs => vs.floatFreeKeys
  | _ => true

def PyKVs.floatFreeKeys : PyKVs → Bool
  | .nil => true
  | .cons k v rest => !k.hasFloat && v.floatFreeKeys && rest.floatFreeKeys

def PyVals.floatFreeKeys : PyVals → Bool
  | .nil => true
  | .cons v rest => v.floatFreeKeys && rest.floatFreeKeys

end

mutual

/-- `db_dynamo._clean_ddb`: convert floats to `Decimal(str(x))`, recursing
into dict values and list/tuple elements (dict keys are passed through). -/
def _clean_ddb : PyVal → PyVal
  | .pFloat x => .pDecimal x
  | .pDict kvs => .pDict (cleanKVs kvs)
  | .pList vs => .pList (cleanVs vs)
  | .pTuple vs => .pTuple (cleanVs vs)
  | v => v

def cleanKVs : PyKVs → PyKVs
  | .nil => .nil
  | .cons k v rest => .cons k (_clean_ddb v) (cleanKVs rest)

def cleanVs : PyVals → PyVals
  | .nil => .nil
  | .cons v rest => .cons (_clean_ddb v) (cleanVs rest)

end

/-- Does a dict body bind the string key `s`? -/
def PyKVs.hasKeyStr : PyKVs → String → Bool
  | .nil, _ => false
  | .cons (.pStr k) _ rest, s => k == s || rest.hasKeyStr s
  | .cons _ _ rest, s => rest.hasKeyStr s

/-- Does a Python dict bind the string key `s`? -/
def PyVal.hasKeyStr : PyVal → String → Bool
  | .pDict kvs, s => kvs.hasKeyStr s
  | _, _ => false

/-- Look up a string key in a Python dict (first binding wins). -/
def PyVal.lookupStr : PyVal → String → Option PyVal
  | .pDict kvs, s => go kvs s
  | _, _ => none
where
  go : PyKVs → String → Option PyVal
    | .nil, _ => none
    | .cons (.pStr k) v rest, s => if k == s then some v else go rest s
    | .cons _ _ rest, s => go rest s

/-! ### String and os.path helpers -/

/-- Python truthiness of an optional string (`event.get(...)`): `None` and
`""` are falsy. -/
def truthyStr : Option String → Bool
  | none => false
  | some s => !(s == "")

/-- Does `pre` start the list `s`? -/
def startsWith : List Char → List Char → Bool
  | [], _ => true
  | _ :: _, [] => false
  | a :: as, b :: bs => a == b && startsWith as bs

/-- Does `s` contain `sub` as a contiguous substring? -/
def hasSub : List Char → List Char → Bool
  | [], sub => startsWith sub []
  | c :: t, sub => startsWith sub (c :: t) || hasSub t sub

/-- Python `sub in s` on strings. -/
def pyIn (sub s : String) : Bool := hasSub s.data sub.data

/-- Python `str.lower()` (ASCII case folding, as `Char.toLower`). -/
def strToLower (s : String) : String := ⟨s.data.map Char.toLower⟩

/-- Index of the last occurrence of `c` in `cs`, if any. -/
def lastIdx (cs : List Char) (c : Char) : Option Nat :=
  match cs with
  | [] => none
  | a :: t =>
    match lastIdx t c with
    | some i => some (i + 1)
    | none => if a == c then some 0 else none

/-- `os.path.basename` for POSIX paths: everything after the last `/`. -/
def basename (p : String) : String :=
  match lastIdx p.data '/' with
  | none => p
  | some i => ⟨p.data.drop (i + 1)⟩

/-- `os.path.splitext(p)[1]`: the extension, i.e. the suffix of the last
component starting at its last dot, empty when the only dots are leading. -/
def splitExtSnd (p : String) : String :=
  let cs := p.data
  let s : Nat := match lastIdx cs '/' with | none => 0 | some i => i + 1
  match lastIdx cs '.' with
  | none => ""
  | some d =>
    if s ≤ d ∧ ((cs.drop s).take (d - s)).any (fun c => !(c == '.')) then
      ⟨cs.drop d⟩
    else ""

/-- Python `str.replace(old, new)` (replace all non-overlapping occurrences,
left to right), with explicit fuel; `replaceFuel old new s.length s` agrees
with Python whenever `old` is non-empty. -/
def replaceFuel (old new : List Char) : Nat → List Char → List Char
  | _, [] => []
  | 0, s => s
  | fuel + 1, c :: t =>
    if startsWith old (c :: t) && !old.isEmpty then
      new ++ replaceFuel old new fuel (List.drop old.length (c :: t))
    else c :: replaceFuel old new fuel t

/-- Python `s.replace(old, new)` for non-empty `old`. -/
def pyReplace (s old new : String) : String :=
  ⟨replaceFuel old.data new.data s.data.length s.data⟩

/-! ### `datetime.now(timezone.utc).isoformat()` -/

/-- A UTC wall-clock instant as produced by `datetime.now(timezone.utc)`. -/
structure DateTimeUTC where
  year : Nat
  month : Nat
  day : Nat
  hour : Nat
  minute : Nat
  second : Nat
  microsecond : Nat

/-- Two-digit zero-padded decimal rendering. -/
def pad2 (n : Nat) : List Char := [Nat.digitChar (n / 10 % 10), Nat.digitChar (n % 10)]

/-- Four-digit zero-padded decimal rendering. -/
def pad4 (n : Nat) : List Char :=
  [Nat.digitChar (n / 1000 % 10), Nat.digitChar (n / 100 % 10),
   Nat.digitChar (n / 10 % 10), Nat.digitChar (n % 10)]

/-- Six-digit zero-padded decimal rendering. -/
def pad6 (n : Nat) : List Char :=
  [Nat.digitChar (n / 100000 % 10), Nat.digitChar (n / 10000 % 10),
   Nat.digitChar (n / 1000 % 10), Nat.digitChar (n / 100 % 10),
   Nat.digitChar (n / 10 % 10), Nat.digitChar (n % 10)]

/-- `isoformat()` of a UTC datetime, without the timezone offset:
`YYYY-MM-DDTHH:MM:SS[.ffffff]` (the fraction is omitted when the
microsecond field is zero, as in CPython). -/
def isoBase (dt : DateTimeUTC) : List Char :=
  pad4 dt.year ++ '-' :: (pad2 dt.month ++ '-' :: (pad2 dt.day ++ 'T' ::
    (pad2 dt.hour ++ ':' :: (pad2 dt.minute ++ ':' :: (pad2 dt.second ++
      (if dt.microsecond = 0 then [] else '.' :: pad6 dt.microsecond))))))

/-- `datetime.now(timezone.utc).isoformat()`: the base instant followed by
the `+00:00` UTC offset. -/
def isoformatUTC (dt : DateTimeUTC) : List Char :=
  isoBase dt ++ '+' :: "00:00".data

/-- `datetime.now(timezone.utc).isoformat().replace("+00:00", "Z")` —
the value stored in `analyzed_at` (handler.py line 178). -/
def analyzedAtStr (dt : DateTimeUTC) : String :=
  ⟨replaceFuel ('+' :: "00:00".data) "Z".data (isoformatUTC dt).length (isoformatUTC dt)⟩

/-! ### Effects and external-world environments -/

/-- One externally visible call made by the pipeline, recorded in order. -/
inductive Eff : Type where
  | downloadFile (bucket key : String)
  | mutagenParse
  | sfInfoCall
  | librosaDurCall
  | librosaPartialCall
  | tempoLoad (sr : Nat) (maxSeconds : Rat)
  | beatTrackCall
  | onsetTempoCall
  | putObject (bucket key : String) (body : PyVal) (contentType : String)
  | updateItem (keyName keyVal : String) (updateExpr : String)
      (names : List (String × String)) (values : List (String × PyVal))
  | putItem (item : PyVal)
deriving DecidableEq

/-- Outcomes of the library calls `_fast_duration` can make on one file.
`.error m` models the call raising an exception. -/
structure DurEnv where
  /-- `float(MutagenMP3(path).info.length)` -/
  mutagenLength : Except String Rat
  /-- `sf.info(path).duration` (which may be `None`) -/
  sfInfoDuration : Except String (Option Rat)
  /-- `float(librosa.get_duration(path=path))` -/
  librosaDuration : Except String Rat
  /-- `librosa.load(path, sr=None, mono=True, duration=5.0)` as `(len y, sr)` -/
  librosaPartial : Except String (Nat × Nat)

/-- Tier 4 of `_fast_duration` (handler.py lines 57-65) plus the final
`return 0.0, "unknown"`. -/
def durTier4 (env : DurEnv) (tr : List Eff) : (Rat × String) × List Eff :=
  match env.librosaPartial with
  | .ok (n, sr) =>
    if sr ≠ 0 ∧ 0 < n then (((n : Rat) / (sr : Rat), "librosa.partial"), tr ++ [.librosaPartialCall])
    else ((0, "unknown"), tr ++ [.librosaPartialCall])
  | .error _ => ((0, "unknown"), tr ++ [.librosaPartialCall])

/-- Tier 3 of `_fast_duration` (lines 49-56): `librosa.get_duration`,
accepted only when positive. -/
def durTier3 (env : DurEnv) (tr : List Eff) : (Rat × String) × List Eff :=
  match env.librosaDuration with
  | .ok d =>
    if 0 < d then ((d, "librosa.get_duration"), tr ++ [.librosaDurCall])
    else durTier4 env (tr ++ [.librosaDurCall])
  | .error _ => durTier4 env (tr ++ [.librosaDurCall])

/-- Tier 2 of `_fast_duration` (lines 42-48): `sf.info`, accepted only when
the reported duration is not `None` and positive. -/
def durTier2 (env : DurEnv) (tr : List Eff) : (Rat × String) × List Eff :=
  match env.sfInfoDuration with
  | .ok (some d) =>
    if 0 < d then ((d, "soundfile.info"), tr ++ [.sfInfoCall])
    else durTier3 env (tr ++ [.sfInfoCall])
  | .ok none => durTier3 env (tr ++ [.sfInfoCall])
  | .error _ => durTier3 env (tr ++ [.sfInfoCall])

/-- `analyzer/handler._fast_duration` (lines 31-66): tiered duration
extraction, each tier swallowing its own failure. -/
def _fast_duration (env : DurEnv) (ext0 : String) : (Rat × String) × List Eff :=
  let ext := strToLower ext0
  if ext = ".mp3" then
    match env.mutagenLength with
    | .ok d => ((d, "mutagen"), [.mutagenParse])
    | .error _ => durTier2 env [.mutagenParse]
  else durTier2 env []

/-- Module-level configuration of the analyzer (environment variables read
at import time: `ENABLE_TEMPO`, `TEMPO_MAX_SECONDS`, `TEMPO_SR`,
`ANALYSIS_PREFIX`). -/
structure Config where
  enableTempo : Bool
  tempoMaxSeconds : Rat
  tempoSR : Nat
  outPre : String

/-- Outcomes of the library calls `_bounded_tempo` can make on one file. -/
structure TempoEnv where
  /-- bounded `librosa.load` as `(len y, sr)`; `.error` models a raise -/
  load : Except String (Nat × Nat)
  /-- `librosa.beat.beat_track(y=y, sr=sr)` as `(tempo, len beats)` -/
  beatTrack : Except String (Rat × Nat)
  /-- onset fallback `librosa.beat.tempo(...)` reduced to a scalar mean -/
  onsetTempo : Except String Rat
  /-- measured wall-clock `time.time() - start` on the success path -/
  elapsed : Rat

/-- `analyzer/handler._bounded_tempo` (lines 69-113): bounded tempo/beat
estimation.  Short-circuits when the feature is disabled; the whole body is
fenced by `try/except` returning `(0.0, 0, 0.0)`; a failure of the onset
fallback alone is only logged. -/
def _bounded_tempo (cfg : Config) (env : TempoEnv) : (Rat × Nat × Rat) × List Eff :=
  if !cfg.enableTempo then ((0, 0, 0), [])
  else
    match env.load with
    | .error _ => ((0, 0, 0), [.tempoLoad cfg.tempoSR cfg.tempoMaxSeconds])
    | .ok (n, sr) =>
      if n = 0 ∨ sr = 0 then ((0, 0, 0), [.tempoLoad cfg.tempoSR cfg.tempoMaxSeconds])
      else
        match env.beatTrack with
        | .error _ => ((0, 0, 0), [.tempoLoad cfg.tempoSR cfg.tempoMaxSeconds, .beatTrackCall])
        | .ok (tempo, beats) =>
          if tempo = 0 ∨ tempo ≤ 0 ∨ beats = 0 then
            match env.onsetTempo with
            | .ok t2 =>
              (((if t2 = 0 then 0 else t2), beats, env.elapsed),
               [.tempoLoad cfg.tempoSR cfg.tempoMaxSeconds, .beatTrackCall, .onsetTempoCall])
            | .error _ =>
              (((if tempo = 0 then 0 else tempo), beats, env.elapsed),
               [.tempoLoad cfg.tempoSR cfg.tempoMaxSeconds, .beatTrackCall, .onsetTempoCall])
          else
            ((tempo, beats, env.elapsed),
             [.tempoLoad cfg.tempoSR cfg.tempoMaxSeconds, .beatTrackCall])

/-! ### The Lambda handler (`analyzer/handler.handler`, lines 116-220) -/

/-- The invocation event; fields are the results of `event.get(...)`
(`none` models both an absent key and an explicit `None`). -/
structure Event where
  bucket : Option String
  key : Option String
  file_id : Option String

/-- Outcomes of every external call the handler itself makes, plus the
sub-environments for the two extraction stages and the measured stage
timings. -/
structure HandlerEnv where
  download : Except String Unit
  dur : DurEnv
  tempo : TempoEnv
  /-- measured `timings["download_s"]` -/
  downloadTime : Rat
  /-- measured `timings["duration_s"]` -/
  durationTime : Rat
  /-- measured `time.time() - t2`, used when `tempo_elapsed` is falsy -/
  tempoTime : Rat
  putObject : Except String Unit
  update1 : Except String Unit
  update2 : Except String Unit
  putItem : Except String Unit
  now : DateTimeUTC

/-- The `analysis` dict assembled at handler.py lines 146-155. -/
structure Analysis where
  duration : Rat
  tempo : Rat
  beats : Nat
  duration_method : String
  timings : List (String × Rat)
  tempo_enabled : Bool
  tempo_max_seconds : Rat
  tempo_sr : Nat
deriving DecidableEq

/-- The analysis dict as a Python value, with exactly the eight keys of the
source dict literal, in source order (this is what `json.dumps` serializes). -/
def analysisToPy (a : Analysis) : PyVal :=
  .pDict (kvsOf
    [("duration", .pFloat a.duration),
     ("tempo", .pFloat a.tempo),
     ("beats", .pInt a.beats),
     ("duration_method", .pStr a.duration_method),
     ("timings", .pDict (kvsOf (a.timings.map fun kv => (kv.1, .pFloat kv.2)))),
     ("tempo_enabled", .pBool a.tempo_enabled),
     ("tempo_max_seconds", .pFloat a.tempo_max_seconds),
     ("tempo_sr", .pInt a.tempo_sr)])

/-- The extension the handler computes at line 137:
`os.path.splitext(key)[1].lower()`. -/
def extOf (key : String) : String := strToLower (splitExtSnd key)

/-- The `analysis` value the handler assembles for a given key (lines
137-155): duration from `_fast_duration`, tempo/beats/elapsed from
`_bounded_tempo`, the three stage timings, and the config echo fields. -/
def analysisOf (cfg : Config) (env : HandlerEnv) (key : String) : Analysis :=
  let dres := (_fast_duration env.dur (extOf key)).1
  let tres := (_bounded_tempo cfg env.tempo).1
  { duration := dres.1
    tempo := tres.1
    beats := tres.2.1
    duration_method := dres.2
    timings :=
      [("download_s", env.downloadTime), ("duration_s", env.durationTime),
       ("tempo_s", if tres.2.2 ≠ 0 then tres.2.2 else env.tempoTime)]
    tempo_enabled := cfg.enableTempo
    tempo_max_seconds := cfg.tempoMaxSeconds
    tempo_sr := cfg.tempoSR }

/-- The artifact key `f"{OUT_PREFIX}{os.path.basename(key)}.json"`. -/
def outKeyOf (cfg : Config) (key : String) : String :=
  cfg.outPre ++ basename key ++ ".json"

/-- The retry guard at line 193:
`"ValidationException" in str(e) or "reserved keyword" in str(e)`. -/
def isValidationClass (m : String) : Bool :=
  pyIn "ValidationException" m || pyIn "reserved keyword" m

/-- The `update_item` call of the handler (lines 185-190): key, update
expression, attribute names and attribute values as built at lines 169-179. -/
def updEffOf (env : HandlerEnv) (fid : String) (a : Analysis) : Eff :=
  .updateItem "file_id" fid "SET #duration = :d, #tempo = :t, #analyzed_at = :a"
    [("#duration", "duration"), ("#tempo", "tempo"), ("#analyzed_at", "analyzed_at")]
    [(":d", .pDecimal a.duration), (":t", .pDecimal a.tempo),
     (":a", .pStr (analyzedAtStr env.now))]

/-- The item inserted by the fallback `put_item` (lines 207-214). -/
def insertItemOf (key : String) (a : Analysis) : PyVal :=
  .pDict (kvsOf
    [("file_id", .pStr (basename key)), ("s3_key", .pStr key),
     ("duration", .pDecimal a.duration), ("tempo", .pDecimal a.tempo)])

/-- The DynamoDB stage of the handler (lines 166-214): keyed update with a
single defensive retry on validation-class errors when `file_id` is truthy,
fallback insert otherwise.  Returns the stage outcome and its effects. -/
def ddbStage (env : HandlerEnv) (fid? : Option String) (key : String) (a : Analysis) :
    Except String Analysis × List Eff :=
  if truthyStr fid? then
    let u := updEffOf env (fid?.getD "") a
    match env.update1 with
    | .ok _ => (.ok a, [u])
    | .error m =>
      if isValidationClass m then
        match env.update2 with
        | .ok _ => (.ok a, [u, u])
        | .error m2 => (.error m2, [u, u])
      else (.error m, [u])
  else
    match env.putItem with
    | .ok _ => (.ok a, [.putItem (insertItemOf key a)])
    | .error m => (.error m, [.putItem (insertItemOf key a)])

/-- The body of the handler's `try:` block (lines 130-216), given truthy
`bucket` and `key`: download, the two extraction stages, the artifact write,
then the metadata stage.  `.error m` is an exception with message `m`
escaping the block. -/
def handlerTry (cfg : Config) (env : HandlerEnv) (bucket key : String)
    (fid? : Option String) : Except String Analysis × List Eff :=
  match env.download with
  | .error m => (.error m, [.downloadFile bucket key])
  | .ok _ =>
    let a := analysisOf cfg env key
    let pre := Eff.downloadFile bucket key ::
      ((_fast_duration env.dur (extOf key)).2 ++ (_bounded_tempo cfg env.tempo).2 ++
       [Eff.putObject bucket (outKeyOf cfg key) (analysisToPy a) "application/json"])
    match env.putObject with
    | .error m => (.error m, pre)
    | .ok _ =>
      ((ddbStage env fid? key a).1, pre ++ (ddbStage env fid? key a).2)

/-- The structured dict the handler returns. -/
inductive HResult : Type where
  | error (msg : String)
  | success (bucket key : String) (analysis : Analysis)
deriving DecidableEq

/-- `analyzer/handler.handler` (lines 116-220): validate the event, then run
the fenced pipeline body, converting any escaping exception into an error
dict at the boundary. -/
def handler (cfg : Config) (env : HandlerEnv) (ev : Event) : HResult × List Eff :=
  if !truthyStr ev.bucket || !truthyStr ev.key then
    (.error "Missing bucket or key", [])
  else
    let bucket := ev.bucket.getD ""
    let key := ev.key.getD ""
    match handlerTry cfg env bucket key ev.file_id with
    | (.ok a, tr) => (.success bucket key a, tr)
    | (.error m, tr) => (.error m, tr)

/-! ### `app/db_dynamo.py`: `save_metadata` and `update_metadata` -/

/-- The `duration`/`tempo` normalisation in `save_metadata` (lines 45-54):
`Decimal("0")` for `None`, `Decimal(str(x))` for a float, the raw value
otherwise. -/
def savedField : Option PyVal → PyVal
  | none => .pDecimal 0
  | some (.pFloat x) => .pDecimal x
  | some v => v

/-- The item `save_metadata` builds and cleans (lines 40-59): `analyzed_at`
is intentionally omitted.  `uuid` is the generated id used when `file_id`
is falsy. -/
def save_metadata_item (uuid : String) (filename s3_key : String)
    (duration tempo : Option PyVal) (file_id : Option String) : PyVal :=
  let fid := if truthyStr file_id then file_id.getD "" else uuid
  _clean_ddb (.pDict (kvsOf
    [("file_id", .pStr fid), ("filename", .pStr filename), ("s3_key", .pStr s3_key),
     ("duration", savedField duration), ("tempo", savedField tempo)]))

/-- `db_dynamo.save_metadata` (lines 32-65): build the cleaned item, attempt
`put_item`; a `ClientError` is swallowed and `None` is returned. -/
def save_metadata (putOk : Except String Unit) (uuid : String)
    (filename s3_key : String) (duration tempo : Option PyVal)
    (file_id : Option String) : Option PyVal × List Eff :=
  let item := save_metadata_item uuid filename s3_key duration tempo file_id
  match putOk with
  | .ok _ => (some item, [.putItem item])
  | .error _ => (none, [.putItem item])

/-- The expression attribute values `update_metadata` sends (lines 79-84):
each field value passed through `_clean_ddb`, keyed by `":" + name`. -/
def updateExprValues (fields : List (String × PyVal)) : List (String × PyVal) :=
  fields.map fun kv => (":" ++ kv.1, _clean_ddb kv.2)

/-- Result of `db_dynamo.update_metadata`: an error dict or the updated
attributes. -/
inductive UpdResult : Type where
  | err (msg : String)
  | ok (attrs : List (String × PyVal))
deriving DecidableEq

/-- `db_dynamo.update_metadata` (lines 68-97): validate inputs, clean the
field values, build names/expression/values, attempt a single `update_item`;
a `ClientError` becomes an error dict. -/
def update_metadata (callResult : Except String (List (String × PyVal)))
    (file_id : String) (fields : List (String × PyVal)) : UpdResult × List Eff :=
  if file_id = "" ∨ fields = [] then (.err "Missing file_id or update fields", [])
  else
    let names := fields.map fun kv => ("#" ++ kv.1, kv.1)
    let updateExpr :=
      "SET " ++ String.intercalate ", " (fields.map fun kv => "#" ++ kv.1 ++ " = :" ++ kv.1)
    let eff := Eff.updateItem "file_id" file_id updateExpr names (updateExprValues fields)
    match callResult with
    | .ok attrs => (.ok attrs, [eff])
    | .error m => (.err m, [eff])

/-! ### Effect discriminators -/

/-- Is the effect a DynamoDB `put_item`? -/
def Eff.isPutItem : Eff → Bool
  | .putItem _ => true
  | _ => false

/-- Is the effect a DynamoDB `update_item`? -/
def Eff.isUpdateItem : Eff → Bool
  | .updateItem _ _ _ _ _ => true
  | _ => false

/-- Is the effect an S3 `put_object`? -/
def Eff.isPutObject : Eff → Bool
  | .putObject _ _ _ _ => true
  | _ => false

/-- Is the effect the bounded tempo decode request? -/
def Eff.isTempoLoad : Eff → Bool
  | .tempoLoad _ _ => true
  | _ => false

/-- The key of an `update_item` effect. -/
def Eff.updKey : Eff → Option (String × String)
  | .updateItem kn kv _ _ _ => some (kn, kv)
  | _ => none

/-- Effects a `_fast_duration` run can produce. -/
def Eff.isDurEff : Eff → Bool
  | .mutagenParse | .sfInfoCall | .librosaDurCall | .librosaPartialCall => true
  | _ => false

/-- Effects a `_bounded_tempo` run can produce. -/
def Eff.isTempoEff : Eff → Bool
  | .tempoLoad _ _ | .beatTrackCall | .onsetTempoCall => true
  | _ => false

/-! ### Spec-side tier model for the duration resolver

The spec describes `DurationResolver` as an ordered list of strategy units,
each `attempt(input) → optional result`, tried in sequence with
short-circuit on first success.  These definitions follow that description;
the C3 theorem compares them with `_fast_duration` as translated from the
source. -/

/-- Spec tier 1: format-specific header parse, applicable to `.mp3` only. -/
def specTier1 (env : DurEnv) (ext : String) : Option (Rat × String) :=
  if strToLower ext = ".mp3" then
    match env.mutagenLength with
    | .ok d => some (d, "mutagen")
    | .error _ => none
  else none

/-- Spec tier 2: generic container-info query, accepted only if positive. -/
def specTier2 (env : DurEnv) : Option (Rat × String) :=
  match env.sfInfoDuration with
  | .ok (some d) => if 0 < d then some (d, "soundfile.info") else none
  | _ => none

/-- Spec tier 3: decode-capable library's metadata query, accepted only if
positive. -/
def specTier3 (env : DurEnv) : Option (Rat × String) :=
  match env.librosaDuration with
  | .ok d => if 0 < d then some (d, "librosa.get_duration") else none
  | .error _ => none

/-- Spec tier 4: bounded partial decode used as a lower-bound estimate. -/
def specTier4 (env : DurEnv) : Option (Rat × String) :=
  match env.librosaPartial with
  | .ok (n, sr) =>
    if sr ≠ 0 ∧ 0 < n then some ((n : Rat) / (sr : Rat), "librosa.partial") else none
  | .error _ => none

/-- The first succeeding tier, in spec order. -/
def specFirstTier (env : DurEnv) (ext : String) : Option (Rat × String) :=
  match specTier1 env ext with
  | some r => some r
  | none =>
    match specTier2 env with
    | some r => some r
    | none =>
      match specTier3 env with
      | some r => some r
      | none => specTier4 env

/-- The calls an ordered short-circuiting chain makes: every tier up to and
including the first succeeding one (tier 1 only attempted for `.mp3`). -/
def specAttempts (env : DurEnv) (ext : String) : List Eff :=
  (if strToLower ext = ".mp3" then [Eff.mutagenParse] else []) ++
  if (specTier1 env ext).isSome then [] else
    Eff.sfInfoCall ::
      if (specTier2 env).isSome then [] else
        Eff.librosaDurCall ::
          if (specTier3 env).isSome then [] else [Eff.librosaPartialCall]

/-! ### Concrete fixtures used by witnesses and counterexamples -/

/-- Default configuration: tempo on, 30 s cap, 22050 Hz, `analysis/`. -/
def cfgA : Config := ⟨true, 30, 22050, "analysis/"⟩

/-- A file on which the mp3 header parse succeeds with duration 3. -/
def durEnvA : DurEnv := ⟨.ok 3, .ok none, .error "nope", .error "nope"⟩

/-- A file on which decode and beat tracking succeed (tempo 120, 42 beats). -/
def tempoEnvA : TempoEnv := ⟨.ok (100, 22050), .ok (120, 42), .ok 100, 1⟩

/-- A file on which beat tracking finds tempo 120 but no beats, and the
onset fallback raises. -/
def tempoEnvCex : TempoEnv := ⟨.ok (10, 100), .ok (120, 0), .error "boom", 2⟩

/-- A fixed UTC instant. -/
def dtA : DateTimeUTC := ⟨2026, 10, 12, 1, 2, 3, 4⟩

/-- Everything succeeds. -/
def envA : HandlerEnv := ⟨.ok (), durEnvA, tempoEnvA, 1, 1, 1, .ok (), .ok (), .ok (), .ok (), dtA⟩

/-- The S3 download raises. -/
def envDownFail : HandlerEnv := { envA with download := .error "download boom" }

/-- The first metadata update raises a validation-class error; the retry
succeeds. -/
def envUpdVal : HandlerEnv := { envA with update1 := .error "ValidationException: reserved" }

/-- An event with bucket, key and a non-empty `file_id`. -/
def evA : Event := ⟨some "test-bucket", some "uploads/abc.wav", some "fid-1"⟩

/-- An event without `file_id`. -/
def evNoFid : Event := ⟨some "test-bucket", some "uploads/foo.mp3", none⟩

/-- An event whose `file_id` is present but empty. -/
def evEmptyFid : Event := ⟨some "b", some "uploads/foo.mp3", some ""⟩

/-- An event with no bucket. -/
def evMissing : Event := ⟨none, some "k", none⟩

/-! ## Helper lemmas -/

mutual

/-- Cleaning removes every float outside dict keys. -/
theorem clean_ddb_noFloat : ∀ v : PyVal, v.floatFreeKeys = true →
    (_clean_ddb v).hasFloat = false
  | .pFloat _, _ => by simp [_clean_ddb, PyVal.hasFloat]
  | .pDecimal _, _ => by simp [_clean_ddb, PyVal.hasFloat]
  | .pInt _, _ => by simp [_clean_ddb, PyVal.hasFloat]
  | .pStr _, _ => by simp [_clean_ddb, PyVal.hasFloat]
  | .pBool _, _ => by simp [_clean_ddb, PyVal.hasFloat]
  | .pNone, _ => by simp [_clean_ddb, PyVal.hasFloat]
  | .pDict kvs, h => by
    simp only [PyVal.floatFreeKeys] at h
    simpa [_clean_ddb, PyVal.hasFloat] using cleanKVs_noFloat kvs h
  | .pList vs, h => by
    simp only [PyVal.floatFreeKeys] at h
    simpa [_clean_ddb, PyVal.hasFloat] using cleanVs_noFloat vs h
  | .pTuple vs, h => by
    simp only [PyVal.floatFreeKeys] at h
    simpa [_clean_ddb, PyVal.hasFloat] using cleanVs_noFloat vs h

theorem cleanKVs_noFloat : ∀ kvs : PyKVs, kvs.floatFreeKeys = true →
    (cleanKVs kvs).hasFloat = false
  | .nil, _ => by simp [cleanKVs, PyKVs.hasFloat]
  | .cons k v rest, h => by
    simp only [PyKVs.floatFreeKeys, Bool.and_eq_true, Bool.not_eq_true'] at h
    simp [cleanKVs, PyKVs.hasFloat, h.1.1, clean_ddb_noFloat v h.1.2,
      cleanKVs_noFloat rest h.2]

theorem cleanVs_noFloat : ∀ vs : PyVals, vs.floatFreeKeys = true →
    (cleanVs vs).hasFloat = false
  | .nil, _ => by simp [cleanVs, PyVals.hasFloat]
  | .cons v rest, h => by
    simp only [PyVals.floatFreeKeys, Bool.and_eq_true] at h
    simp [cleanVs, PyVals.hasFloat, clean_ddb_noFloat v h.1, cleanVs_noFloat rest h.2]

end

mutual

/-- Cleaning a float-free value leaves it unchanged (non-float leaves and
container structure are preserved). -/
theorem clean_ddb_id : ∀ v : PyVal, v.hasFloat = false → _clean_ddb v = v
  | .pFloat _, h => by simp [PyVal.hasFloat] at h
  | .pDecimal _, _ => rfl
  | .pInt _, _ => rfl
  | .pStr _, _ => rfl
  | .pBool _, _ => rfl
  | .pNone, _ => rfl
  | .pDict kvs, h => by
    simp only [PyVal.hasFloat] at h
    simp [_clean_ddb, cleanKVs_id kvs h]
  | .pList vs, h => by
    simp only [PyVal.hasFloat] at h
    simp [_clean_ddb, cleanVs_id vs h]
  | .pTuple vs, h => by
    simp only [PyVal.hasFloat] at h
    simp [_clean_ddb, cleanVs_id vs h]

theorem cleanKVs_id : ∀ kvs : PyKVs, kvs.hasFloat = false → cleanKVs kvs = kvs
  | .nil, _ => rfl
  | .cons k v rest, h => by
    simp only [PyKVs.hasFloat, Bool.or_eq_false_iff] at h
    simp [cleanKVs, clean_ddb_id v h.1.2, cleanKVs_id rest h.2]

theorem cleanVs_id : ∀ vs : PyVals, vs.hasFloat = false → cleanVs vs = vs
  | .nil, _ => rfl
  | .cons v rest, h => by
    simp only [PyVals.hasFloat, Bool.or_eq_false_iff] at h
    simp [cleanVs, clean_ddb_id v h.1, cleanVs_id rest h.2]

end

/-- Cleaning does not change which string keys a dict body binds. -/
theorem cleanKVs_hasKeyStr : ∀ (kvs : PyKVs) (s : String),
    (cleanKVs kvs).hasKeyStr s = kvs.hasKeyStr s
  | .nil, _ => rfl
  | .cons k v rest, s => by
    cases k <;> simp [cleanKVs, PyKVs.hasKeyStr, cleanKVs_hasKeyStr rest s]

/-- Every effect of a `_fast_duration` run is a duration-stage library call. -/
theorem fast_duration_effs (env : DurEnv) (ext : String) :
    ∀ e ∈ (_fast_duration env ext).2, e.isDurEff = true := by
  have h4 : ∀ tr, (∀ e ∈ tr, Eff.isDurEff e = true) →
      ∀ e ∈ (durTier4 env tr).2, Eff.isDurEff e = true := by
    intro tr htr e
    unfold durTier4
    rcases env.librosaPartial with m | ⟨n, sr⟩ <;> simp <;>
      first
        | (rintro (he | rfl)
           · exact htr e he
           · rfl)
        | (split <;> simp <;> rintro (he | rfl)
           · exact htr e he
           · rfl
           · exact htr e he
           · rfl)
  have h3 : ∀ tr, (∀ e ∈ tr, Eff.isDurEff e = true) →
      ∀ e ∈ (durTier3 env tr).2, Eff.isDurEff e = true := by
    intro tr htr
    unfold durTier3
    have htr' : ∀ e ∈ tr ++ [Eff.librosaDurCall], Eff.isDurEff e = true := by
      intro e he
      rcases List.mem_append.mp he with he | he
      · exact htr e he
      · simp at he; subst he; rfl
    rcases env.librosaDuration with m | d
    · exact h4 _ htr'
    · intro e
      simp only
      split
      · intro he
        exact htr' e he
      · exact h4 _ htr' e
  have h2 : ∀ tr, (∀ e ∈ tr, Eff.isDurEff e = true) →
      ∀ e ∈ (durTier2 env tr).2, Eff.isDurEff e = true := by
    intro tr htr
    unfold durTier2
    have htr' : ∀ e ∈ tr ++ [Eff.sfInfoCall], Eff.isDurEff e = true := by
      intro e he
      rcases List.mem_append.mp he with he | he
      · exact htr e he
      · simp at he; subst he; rfl
    rcases env.sfInfoDuration with m | o
    · exact h3 _ htr'
    · rcases o with _ | d
      · exact h3 _ htr'
      · intro e
        simp only
        split
        · intro he
          exact htr' e he
        · exact h3 _ htr' e
  unfold _fast_duration
  rcases hm : env.mutagenLength with m | d <;> simp only [hm] <;> split
  · exact h2 _ (by intro e he; simp at he; subst he; rfl)
  · exact h2 _ (by intro e he; simp at he)
  · intro e he; simp at he; subst he; rfl
  · exact h2 _ (by intro e he; simp at he)

/-- Every effect of a `_bounded_tempo` run is a tempo-stage library call. -/
theorem bounded_tempo_effs (cfg : Config) (env : TempoEnv) :
    ∀ e ∈ (_bounded_tempo cfg env).2, e.isTempoEff = true := by
  unfold _bounded_tempo
  split
  · simp
  · rcases env.load with m | ⟨n, sr⟩
    · intro e he; simp at he; subst he; rfl
    · simp only
      split
      · intro e he; simp at he; subst he; rfl
      · rcases env.beatTrack with m | ⟨t, b⟩
        · intro e he
          simp at he
          rcases he with rfl | rfl <;> rfl
        · simp only
          split
          · rcases env.onsetTempo with m | t2 <;>
              · intro e he
                simp at he
                rcases he with rfl | rfl | rfl <;> rfl
          · intro e he
            simp at he
            rcases he with rfl | rfl <;> rfl

/-- Duration-stage effects are not store or artifact operations. -/
theorem durEff_not_store (e : Eff) (h : e.isDurEff = true) :
    e.isPutItem = false ∧ e.isUpdateItem = false ∧ e.isPutObject = false ∧
    e.isTempoLoad = false := by
  cases e <;> simp_all [Eff.isDurEff, Eff.isPutItem, Eff.isUpdateItem, Eff.isPutObject,
    Eff.isTempoLoad]

/-- Tempo-stage effects are not store or artifact operations. -/
theorem tempoEff_not_store (e : Eff) (h : e.isTempoEff = true) :
    e.isPutItem = false ∧ e.isUpdateItem = false ∧ e.isPutObject = false := by
  cases e <;> simp_all [Eff.isTempoEff, Eff.isPutItem, Eff.isUpdateItem, Eff.isPutObject]

/-- The duration stage performs no store or artifact operation. -/
theorem durTrace_no_store (env : DurEnv) (ext : String) :
    (_fast_duration env ext).2.filter Eff.isPutItem = [] ∧
    (_fast_duration env ext).2.filter Eff.isUpdateItem = [] ∧
    (_fast_duration env ext).2.filter Eff.isPutObject = [] := by
  refine ⟨List.filter_eq_nil_iff.mpr ?_, List.filter_eq_nil_iff.mpr ?_,
    List.filter_eq_nil_iff.mpr ?_⟩ <;>
    · intro e he
      have h := durEff_not_store e (fast_duration_effs env ext e he)
      simp_all

/-- The tempo stage performs no store or artifact operation. -/
theorem tempoTrace_no_store (cfg : Config) (env : TempoEnv) :
    (_bounded_tempo cfg env).2.filter Eff.isPutItem = [] ∧
    (_bounded_tempo cfg env).2.filter Eff.isUpdateItem = [] ∧
    (_bounded_tempo cfg env).2.filter Eff.isPutObject = [] := by
  refine ⟨List.filter_eq_nil_iff.mpr ?_, List.filter_eq_nil_iff.mpr ?_,
    List.filter_eq_nil_iff.mpr ?_⟩ <;>
    · intro e he
      have h := tempoEff_not_store e (bounded_tempo_effs cfg env e he)
      simp_all

/-- The metadata stage writes no artifact, and its effects are exactly the
store calls described by its branches. -/
theorem ddbStage_no_putObject (env : HandlerEnv) (fid? : Option String)
    (key : String) (a : Analysis) :
    (ddbStage env fid? key a).2.filter Eff.isPutObject = [] := by
  unfold ddbStage
  split
  · rcases env.update1 with m | u
    · simp only
      split
      · rcases env.update2 with m2 | u2 <;> simp [updEffOf, Eff.isPutObject]
      · simp [updEffOf, Eff.isPutObject]
    · simp [updEffOf, Eff.isPutObject]
  · rcases env.putItem with m | u <;> simp [Eff.isPutObject]

/-! ### Lemmas about `str.replace` and the ISO timestamp -/

/-- A list starts with itself. -/
theorem startsWith_self : ∀ l : List Char, startsWith l l = true
  | [] => rfl
  | c :: t => by simp [startsWith, startsWith_self t]

/-- Replacing `old = o :: old'` in `p ++ old` where `o` does not occur in
`p` rewrites exactly the final occurrence. -/
theorem replaceFuel_boundary (o : Char) (old' new : List Char) :
    ∀ (p : List Char) (fuel : Nat), (∀ c ∈ p, c ≠ o) → p.length < fuel →
      replaceFuel (o :: old') new fuel (p ++ o :: old') = p ++ new
  | [], fuel, _, hf => by
    rcases fuel with _ | f
    · omega
    · simp only [List.nil_append, replaceFuel, startsWith_self, List.isEmpty_cons,
        Bool.not_false, Bool.and_self, if_true]
      rw [show List.drop (o :: old').length (o :: old') = [] from
        List.drop_length (o :: old')]
      rcases f with _ | f' <;> simp [replaceFuel]
  | c :: p', fuel, hp, hf => by
    rcases fuel with _ | f
    · omega
    · have hco : (startsWith (o :: old') (c :: (p' ++ o :: old'))) = false := by
        have h1 : (o == c) = false := by
          have h2 := hp c (by simp)
          exact beq_eq_false_iff_ne.mpr fun h => h2 h.symm
        simp [startsWith, h1]
      simp only [List.cons_append, replaceFuel, List.append_eq, hco, Bool.false_and,
        if_false]
      rw [replaceFuel_boundary o old' new p' f
        (fun x hx => hp x (by simp [hx])) (by simp at hf; omega)]
      simp

/-- Decimal digit characters are never `'+'`. -/
theorem digitChar_ne_plus (n : Nat) : Nat.digitChar (n % 10) ≠ '+' := by
  have h : n % 10 < 10 := Nat.mod_lt _ (by norm_num)
  revert h
  generalize n % 10 = m
  revert m
  decide

/-- The offset-free part of the ISO timestamp contains no `'+'`. -/
theorem plus_not_mem_isoBase (dt : DateTimeUTC) : '+' ∉ isoBase dt := by
  intro h
  unfold isoBase at h
  split at h <;>
    simp only [pad4, pad2, pad6, List.mem_append, List.mem_cons, List.not_mem_nil,
      or_false, List.append_nil] at h <;>
    casesm* _ ∨ _ <;> rename_i hh <;>
      first
        | exact digitChar_ne_plus _ hh.symm
        | exact absurd hh (by decide)

/-- The stored `analyzed_at` string is the offset-free instant followed by a
literal `Z`. -/
theorem analyzedAtStr_data (dt : DateTimeUTC) :
    (analyzedAtStr dt).data = isoBase dt ++ ['Z'] := by
  have h := replaceFuel_boundary '+' "00:00".data "Z".data (isoBase dt)
    (isoformatUTC dt).length (fun c hc => by
      intro hh
      exact plus_not_mem_isoBase dt (hh ▸ hc))
    (by simp [isoformatUTC])
  simpa [analyzedAtStr, isoformatUTC] using h

/-! ### Shape lemmas for the handler's outcome and trace -/

/-- With truthy bucket and key, the handler is the boundary-conversion of
its fenced body. -/
theorem handler_eq (cfg : Config) (env : HandlerEnv) (ev : Event) (b k : String)
    (hb : ev.bucket = some b) (hk : ev.key = some k) (hb' : b ≠ "") (hk' : k ≠ "") :
    handler cfg env ev =
      (match handlerTry cfg env b k ev.file_id with
       | (.ok a, tr) => (HResult.success b k a, tr)
       | (.error m, tr) => (HResult.error m, tr)) := by
  simp [handler, truthyStr, hb, hk, hb', hk']

/-- If the download raises, the run stops with that error after the single
download call. -/
theorem handler_shape_downfail (cfg : Config) (env : HandlerEnv) (ev : Event)
    (b k m : String) (hb : ev.bucket = some b) (hk : ev.key = some k)
    (hb' : b ≠ "") (hk' : k ≠ "") (hd : env.download = .error m) :
    handler cfg env ev = (.error m, [.downloadFile b k]) := by
  rw [handler_eq cfg env ev b k hb hk hb' hk']
  simp [handlerTry, hd]

/-- If the download succeeds but the artifact write raises, the run stops
with that error after download, extraction and the attempted write. -/
theorem handler_shape_putfail (cfg : Config) (env : HandlerEnv) (ev : Event)
    (b k m : String) (hb : ev.bucket = some b) (hk : ev.key = some k)
    (hb' : b ≠ "") (hk' : k ≠ "") (hd : env.download = .ok ())
    (hp : env.putObject = .error m) :
    handler cfg env ev =
      (.error m, Eff.downloadFile b k ::
        ((_fast_duration env.dur (extOf k)).2 ++ (_bounded_tempo cfg env.tempo).2 ++
         [Eff.putObject b (outKeyOf cfg k) (analysisToPy (analysisOf cfg env k))
           "application/json"])) := by
  rw [handler_eq cfg env ev b k hb hk hb' hk']
  simp [handlerTry, hd, hp]

/-- If download and artifact write succeed, the outcome is the metadata
stage's outcome and the trace is download, extraction, write, then the
metadata stage's calls. -/
theorem handler_shape_ok (cfg : Config) (env : HandlerEnv) (ev : Event)
    (b k : String) (hb : ev.bucket = some b) (hk : ev.key = some k)
    (hb' : b ≠ "") (hk' : k ≠ "") (hd : env.download = .ok ())
    (hp : env.putObject = .ok ()) :
    (handler cfg env ev).1 =
      (match (ddbStage env ev.file_id k (analysisOf cfg env k)).1 with
       | .ok a => HResult.success b k a
       | .error m => HResult.error m) ∧
    (handler cfg env ev).2 =
      Eff.downloadFile b k ::
        (((_fast_duration env.dur (extOf k)).2 ++ (_bounded_tempo cfg env.tempo).2 ++
          [Eff.putObject b (outKeyOf cfg k) (analysisToPy (analysisOf cfg env k))
            "application/json"]) ++
         (ddbStage env ev.file_id k (analysisOf cfg env k)).2) := by
  rw [handler_eq cfg env ev b k hb hk hb' hk']
  rcases hr : ddbStage env ev.file_id k (analysisOf cfg env k) with ⟨r, tr2⟩
  rcases r with m | a <;>
    simp [handlerTry, hd, hp, hr]

/-- With a truthy `file_id` the metadata stage issues only keyed updates:
no insert, and one or two copies of the same `update_item` call. -/
theorem ddbStage_truthy (env : HandlerEnv) (fid? : Option String) (key : String)
    (a : Analysis) (h : truthyStr fid? = true) :
    (∀ e ∈ (ddbStage env fid? key a).2, e = updEffOf env (fid?.getD "") a) ∧
    ((ddbStage env fid? key a).2 = [updEffOf env (fid?.getD "") a] ∨
     (ddbStage env fid? key a).2 =
       [updEffOf env (fid?.getD "") a, updEffOf env (fid?.getD "") a]) := by
  unfold ddbStage
  rw [h]
  rcases env.update1 with m | u
  · simp only [if_true]
    split
    · rcases env.update2 with m2 | u2 <;> simp
    · simp
  · simp

/-- With an absent or empty `file_id` the metadata stage performs exactly
the fallback insert. -/
theorem ddbStage_falsy (env : HandlerEnv) (fid? : Option String) (key : String)
    (a : Analysis) (h : truthyStr fid? = false) :
    (ddbStage env fid? key a).2 = [.putItem (insertItemOf key a)] := by
  unfold ddbStage
  rw [h]
  rcases env.putItem with m | u <;> simp

/-! ## Claim theorems -/

/-- C1: for every invocation event containing a (truthy) bucket and key, any
exception escaping the fenced pipeline body — download, duration extraction,
tempo extraction, artifact write or metadata persistence — is caught at the
handler boundary and converted into an `error` dict with that exception's
message, and every non-exceptional run returns a `success` dict: the handler
never propagates an unhandled exception. -/
theorem c1_pipeline_boundary (cfg : Config) (env : HandlerEnv) (ev : Event)
    (b k : String) (hb : ev.bucket = some b) (hk : ev.key = some k)
    (hb' : b ≠ "") (hk' : k ≠ "") :
    (∀ m tr, handlerTry cfg env b k ev.file_id = (.error m, tr) →
      handler cfg env ev = (.error m, tr)) ∧
    (∀ a tr, handlerTry cfg env b k ev.file_id = (.ok a, tr) →
      handler cfg env ev = (.success b k a, tr)) := by
  rw [handler_eq cfg env ev b k hb hk hb' hk']
  constructor <;> intro x tr h <;> rw [h]

/-- Witness for C1: a run whose download raises `"download boom"` returns
exactly that message as an error dict. -/
theorem c1_witness :
    handler cfgA envDownFail evA =
      (.error "download boom", [.downloadFile "test-bucket" "uploads/abc.wav"]) :=
  (c1_pipeline_boundary cfgA envDownFail evA "test-bucket" "uploads/abc.wav"
    rfl rfl (by decide) (by decide)).1 "download boom" _ rfl

/-- A missing bucket or key short-circuits the handler to the input-error
dict with an empty effect trace. -/
theorem handler_missing (cfg : Config) (env : HandlerEnv) (ev : Event)
    (h : ev.bucket = none ∨ ev.key = none) :
    handler cfg env ev = (.error "Missing bucket or key", []) := by
  rcases h with h | h <;> simp [handler, h, truthyStr]

/-- C2: whenever the bucket or the key is missing from the event, the
handler returns exactly the `"Missing bucket or key"` error dict and
performs no download, no artifact write and no metadata-store call (its
effect trace is empty). -/
theorem c2_missing_input (cfg : Config) (env : HandlerEnv) (ev : Event)
    (h : ev.bucket = none ∨ ev.key = none) :
    handler cfg env ev = (.error "Missing bucket or key", []) :=
  handler_missing cfg env ev h

/-- Witness for C2: an event with no bucket. -/
theorem c2_witness : handler cfgA envA evMissing = (.error "Missing bucket or key", []) :=
  c2_missing_input cfgA envA evMissing (Or.inl rfl)

/-- Tier 4 of the source agrees with spec tier 4, recording its one call. -/
theorem durTier4_eq (env : DurEnv) (tr : List Eff) :
    durTier4 env tr = ((specTier4 env).getD (0, "unknown"), tr ++ [.librosaPartialCall]) := by
  unfold durTier4 specTier4
  rcases env.librosaPartial with e | ⟨n, sr⟩
  · simp
  · simp only
    split_ifs <;> simp

/-- Tiers 3-4 of the source agree with the spec chain from tier 3. -/
theorem durTier3_eq (env : DurEnv) (tr : List Eff) :
    durTier3 env tr =
      ((match specTier3 env with
        | some r => some r
        | none => specTier4 env).getD (0, "unknown"),
       tr ++ Eff.librosaDurCall ::
         (if (specTier3 env).isSome then [] else [Eff.librosaPartialCall])) := by
  unfold durTier3 specTier3
  rcases env.librosaDuration with e | d
  · simp [durTier4_eq]
  · simp only
    split_ifs <;> simp_all [durTier4_eq]

/-- Tiers 2-4 of the source agree with the spec chain from tier 2. -/
theorem durTier2_eq (env : DurEnv) (tr : List Eff) :
    durTier2 env tr =
      ((match specTier2 env with
        | some r => some r
        | none =>
          match specTier3 env with
          | some r => some r
          | none => specTier4 env).getD (0, "unknown"),
       tr ++ Eff.sfInfoCall ::
         (if (specTier2 env).isSome then [] else
           Eff.librosaDurCall ::
             (if (specTier3 env).isSome then [] else [Eff.librosaPartialCall]))) := by
  unfold durTier2 specTier2
  rcases env.sfInfoDuration with e | (_ | d)
  · simp [durTier3_eq]
  · simp [durTier3_eq]
  · simp only
    split_ifs <;> simp_all [durTier3_eq]

/-- The source resolver equals the spec's short-circuiting chain, both in
result and in the calls it makes. -/
theorem fast_duration_eq_spec (env : DurEnv) (ext : String) :
    _fast_duration env ext =
      ((specFirstTier env ext).getD (0, "unknown"), specAttempts env ext) := by
  unfold _fast_duration specFirstTier specAttempts specTier1
  by_cases hm : strToLower ext = ".mp3" <;> simp only [hm, if_true, if_false]
  · rcases env.mutagenLength with e | d
    · simp [durTier2_eq]
    · simp
  · simp [durTier2_eq]

/-- A succeeding tier never reports the label `"unknown"`. -/
theorem specFirstTier_label (env : DurEnv) (ext : String) (d : Rat) (lbl : String)
    (h : specFirstTier env ext = some (d, lbl)) : lbl ≠ "unknown" := by
  obtain ⟨m, s, l3, l4⟩ := env
  unfold specFirstTier specTier1 specTier2 specTier3 specTier4 at h
  rcases m with em | dm <;> rcases s with es | (_ | ds) <;>
    rcases l3 with e3 | d3 <;> rcases l4 with e4 | ⟨n, sr⟩ <;>
    simp only [] at h <;>
    (repeat' split at h) <;>
    simp_all <;>
    (intro hc; subst hc; simp_all)

/-- C3: `_fast_duration` never raises and behaves as the ordered
short-circuiting tier chain of the spec: it returns the result of the first
succeeding tier, calls exactly the tiers up to and including that one, and
returns `(0.0, "unknown")` exactly when every tier fails. -/
theorem c3_duration_resolver (env : DurEnv) (ext : String) :
    _fast_duration env ext =
      ((specFirstTier env ext).getD (0, "unknown"), specAttempts env ext) ∧
    ((_fast_duration env ext).1 = (0, "unknown") ↔ specFirstTier env ext = none) := by
  refine ⟨fast_duration_eq_spec env ext, ?_⟩
  rw [fast_duration_eq_spec]
  rcases hft : specFirstTier env ext with _ | ⟨d, lbl⟩
  · simp
  · simp only [Option.getD_some]
    constructor
    · intro hpair
      have hlbl : lbl = "unknown" := congrArg Prod.snd hpair
      exact absurd hlbl (specFirstTier_label env ext d lbl hft)
    · intro hcon
      simp at hcon

/-- C4 counterexample: with tempo enabled, a decode yielding samples, beat
tracking reporting tempo 120 with an empty beat set, and the onset fallback
raising, `_bounded_tempo` suffers an internal failure at the fallback stage
yet returns `(120, 0, 2)`, not `(0.0, 0, 0.0)` as the claim states. -/
theorem c4_counterexample :
    tempoEnvCex.onsetTempo = .error "boom" ∧ cfgA.enableTempo = true ∧
    (_bounded_tempo cfgA tempoEnvCex).1 = (120, 0, 2) ∧
    ((120 : Rat), (0 : Nat), (2 : Rat)) ≠ ((0 : Rat), (0 : Nat), (0 : Rat)) := by
  exact ⟨rfl, rfl, by decide, by decide⟩

/-- C4 (amended): `_bounded_tempo` never raises; it returns `(0.0, 0, 0.0)`
without touching the file when the feature is disabled, and likewise when
the bounded decode raises or yields no samples or when the primary beat
tracker raises; but a failure of the onset fallback alone is only logged —
the estimator then returns the primary stage's values. -/
theorem c4_tempo_degradation (cfg : Config) (env : TempoEnv) :
    (cfg.enableTempo = false → _bounded_tempo cfg env = ((0, 0, 0), [])) ∧
    (∀ m, env.load = .error m → (_bounded_tempo cfg env).1 = (0, 0, 0)) ∧
    (∀ n sr, env.load = .ok (n, sr) → n = 0 ∨ sr = 0 →
      (_bounded_tempo cfg env).1 = (0, 0, 0)) ∧
    (∀ m, env.beatTrack = .error m → (_bounded_tempo cfg env).1 = (0, 0, 0)) ∧
    (∀ n sr t b m, env.load = .ok (n, sr) → n ≠ 0 → sr ≠ 0 →
      cfg.enableTempo = true → env.beatTrack = .ok (t, b) → t ≤ 0 ∨ b = 0 →
      env.onsetTempo = .error m →
      (_bounded_tempo cfg env).1 = (t, b, env.elapsed)) := by
  refine ⟨?_, ?_, ?_, ?_, ?_⟩
  · intro h
    simp [_bounded_tempo, h]
  · intro m hm
    by_cases he : cfg.enableTempo <;> simp [_bounded_tempo, he, hm]
  · intro n sr hl hz
    by_cases he : cfg.enableTempo <;> simp [_bounded_tempo, he, hl]
    rcases hz with hz | hz <;> simp [hz]
  · intro m hm
    by_cases he : cfg.enableTempo <;> simp [_bounded_tempo, he, hm]
    rcases hl : env.load with m' | ⟨n, sr⟩ <;> simp
    split
    · simp
    · simp
  · intro n sr t b m hl hn hsr he hbt hcond hot
    simp only [_bounded_tempo, he, Bool.not_true, Bool.false_eq_true, if_false, hl, hot, hbt]
    rw [if_neg (by simp [hn, hsr])]
    rw [if_pos (by rcases hcond with hc | hc
                   · exact Or.inr (Or.inl hc)
                   · exact Or.inr (Or.inr hc))]
    by_cases ht : t = 0 <;> simp [ht]

/-- Witness for C4 (amended): the fallback-failure branch at a concrete
environment returns the primary stage's values. -/
theorem c4_witness : (_bounded_tempo cfgA tempoEnvCex).1 = (120, 0, 2) :=
  (c4_tempo_degradation cfgA tempoEnvCex).2.2.2.2 10 100 120 0 "boom" rfl
    (by decide) (by decide) rfl rfl (Or.inr rfl) rfl

/-- C5: whenever the tempo feature is enabled, `_bounded_tempo` issues
exactly one decode request, and that request asks for at most
`tempoMaxSeconds` of audio resampled to the configured `tempoSR`, whatever
the file (environment) looks like. -/
theorem c5_bounded_decode (cfg : Config) (env : TempoEnv)
    (h : cfg.enableTempo = true) :
    (_bounded_tempo cfg env).2.filter Eff.isTempoLoad =
      [Eff.tempoLoad cfg.tempoSR cfg.tempoMaxSeconds] := by
  unfold _bounded_tempo
  rw [h]
  rcases env.load with m | ⟨n, sr⟩
  · simp [Eff.isTempoLoad, List.filter]
  · simp only [Bool.not_true, Bool.false_eq_true, if_false]
    split
    · simp [Eff.isTempoLoad, List.filter]
    · rcases env.beatTrack with m | ⟨t, b⟩
      · simp [Eff.isTempoLoad, Eff.isTempoEff, List.filter]
      · simp only
        split
        · rcases env.onsetTempo with m | t2 <;>
            simp [Eff.isTempoLoad, List.filter]
        · simp [Eff.isTempoLoad, List.filter]

/-- Witness for C5: the concrete all-success environment issues exactly the
30-second, 22050 Hz decode request. -/
theorem c5_witness :
    (_bounded_tempo cfgA tempoEnvA).2.filter Eff.isTempoLoad = [Eff.tempoLoad 22050 30] :=
  c5_bounded_decode cfgA tempoEnvA rfl

/-- C6 counterexample: an event whose `file_id` is present but equal to the
empty string takes the insert path — one `put_item`, no `update_item` —
although the claim requires a keyed update and no insert whenever `file_id`
is present. -/
theorem c6_counterexample :
    evEmptyFid.file_id.isSome = true ∧
    (handler cfgA envA evEmptyFid).2.countP Eff.isPutItem = 1 ∧
    (handler cfgA envA evEmptyFid).2.countP Eff.isUpdateItem = 0 := by
  refine ⟨rfl, ?_, ?_⟩ <;> decide

/-- C6 (amended): with truthy bucket and key, if the event's `file_id` is
present *and non-empty* the pipeline never inserts and every store call is
an update keyed `{file_id}` (at least one once the persistence stage is
reached); if `file_id` is absent — or present but empty — it never updates
and, once the persistence stage is reached, performs exactly one insert
whose item has `file_id = basename(key)` and `s3_key = key`. -/
theorem c6_keyed_upsert (cfg : Config) (env : HandlerEnv) (ev : Event)
    (b k : String) (hb : ev.bucket = some b) (hk : ev.key = some k)
    (hb' : b ≠ "") (hk' : k ≠ "") :
    (∀ fid, ev.file_id = some fid → fid ≠ "" →
      (handler cfg env ev).2.filter Eff.isPutItem = [] ∧
      (∀ e ∈ (handler cfg env ev).2, e.isUpdateItem = true →
        e.updKey = some ("file_id", fid)) ∧
      (env.download = .ok () → env.putObject = .ok () →
        (handler cfg env ev).2.filter Eff.isUpdateItem ≠ [])) ∧
    ((ev.file_id = none ∨ ev.file_id = some "") →
      (handler cfg env ev).2.filter Eff.isUpdateItem = [] ∧
      (env.download = .ok () → env.putObject = .ok () →
        (handler cfg env ev).2.filter Eff.isPutItem =
          [Eff.putItem (insertItemOf k (analysisOf cfg env k))])) ∧
    (∀ key a, (insertItemOf key a).lookupStr "file_id" = some (.pStr (basename key)) ∧
      (insertItemOf key a).lookupStr "s3_key" = some (.pStr key)) := by
  refine ⟨?_, ?_, ?_⟩
  · intro fid hf hf'
    have htr : truthyStr ev.file_id = true := by simp [truthyStr, hf, hf']
    rcases hd : env.download with m | u
    · rw [handler_shape_downfail cfg env ev b k m hb hk hb' hk' hd]
      refine ⟨by simp [Eff.isPutItem], ?_, ?_⟩
      · intro e he hu
        simp at he
        subst he
        simp [Eff.isUpdateItem] at hu
      · intro hdo _
        exact absurd hdo (by simp)
    · rcases hp : env.putObject with m | u2
      · rw [handler_shape_putfail cfg env ev b k m hb hk hb' hk' hd hp]
        refine ⟨?_, ?_, ?_⟩
        · simp [List.filter_append, List.filter_cons, Eff.isPutItem,
            (durTrace_no_store env.dur (extOf k)).1,
            (tempoTrace_no_store cfg env.tempo).1]
        · intro e he hu
          simp [List.mem_cons, List.mem_append] at he
          rcases he with rfl | he | he | rfl
          · simp [Eff.isUpdateItem] at hu
          · have := durEff_not_store e (fast_duration_effs env.dur (extOf k) e he)
            simp_all
          · have := tempoEff_not_store e (bounded_tempo_effs cfg env.tempo e he)
            simp_all
          · simp [Eff.isUpdateItem] at hu
        · intro _ hpo
          exact absurd hpo (by simp)
      · obtain ⟨h1, h2⟩ := handler_shape_ok cfg env ev b k hb hk hb' hk' hd hp
        obtain ⟨hall, hdisj⟩ := ddbStage_truthy env ev.file_id k (analysisOf cfg env k) htr
        refine ⟨?_, ?_, ?_⟩
        · rw [h2]
          rcases hdisj with hddb | hddb <;>
            simp [List.filter_append, List.filter_cons, hddb, Eff.isPutItem, updEffOf,
              (durTrace_no_store env.dur (extOf k)).1,
              (tempoTrace_no_store cfg env.tempo).1]
        · intro e he hu
          rw [h2] at he
          simp [List.mem_cons, List.mem_append] at he
          rcases he with rfl | he | he | rfl | he
          · simp [Eff.isUpdateItem] at hu
          · have := durEff_not_store e (fast_duration_effs env.dur (extOf k) e he)
            simp_all
          · have := tempoEff_not_store e (bounded_tempo_effs cfg env.tempo e he)
            simp_all
          · simp [Eff.isUpdateItem] at hu
          · have he2 := hall e he
            subst he2
            simp [updEffOf, Eff.updKey, hf]
        · intro _ _
          rw [h2]
          rcases hdisj with hddb | hddb <;>
            simp [List.filter_append, List.filter_cons, hddb, Eff.isUpdateItem, updEffOf,
              (durTrace_no_store env.dur (extOf k)).2.1,
              (tempoTrace_no_store cfg env.tempo).2.1]
  · intro hfe
    have htr : truthyStr ev.file_id = false := by
      rcases hfe with h | h <;> simp [truthyStr, h]
    rcases hd : env.download with m | u
    · rw [handler_shape_downfail cfg env ev b k m hb hk hb' hk' hd]
      refine ⟨by simp [Eff.isUpdateItem], ?_⟩
      intro hdo _
      exact absurd hdo (by simp)
    · rcases hp : env.putObject with m | u2
      · rw [handler_shape_putfail cfg env ev b k m hb hk hb' hk' hd hp]
        refine ⟨?_, ?_⟩
        · simp [List.filter_append, List.filter_cons, Eff.isUpdateItem,
            (durTrace_no_store env.dur (extOf k)).2.1,
            (tempoTrace_no_store cfg env.tempo).2.1]
        · intro _ hpo
          exact absurd hpo (by simp)
      · obtain ⟨h1, h2⟩ := handler_shape_ok cfg env ev b k hb hk hb' hk' hd hp
        have hddb := ddbStage_falsy env ev.file_id k (analysisOf cfg env k) htr
        refine ⟨?_, ?_⟩
        · rw [h2]
          simp [List.filter_append, List.filter_cons, hddb, Eff.isUpdateItem,
            (durTrace_no_store env.dur (extOf k)).2.1,
            (tempoTrace_no_store cfg env.tempo).2.1]
        · intro _ _
          rw [h2]
          simp [List.filter_append, List.filter_cons, hddb, Eff.isPutItem,
            (durTrace_no_store env.dur (extOf k)).1,
            (tempoTrace_no_store cfg env.tempo).1]
  · intro key a
    constructor <;> simp [insertItemOf, kvsOf, PyVal.lookupStr, PyVal.lookupStr.go]

/-- Witness for C6 (amended): the all-success run with `file_id = "fid-1"`
performs no insert. -/
theorem c6_witness : (handler cfgA envA evA).2.filter Eff.isPutItem = [] :=
  ((c6_keyed_upsert cfgA envA evA "test-bucket" "uploads/abc.wav" rfl rfl
    (by decide) (by decide)).1 "fid-1" rfl (by decide)).1

/-- Outcome and calls of the keyed-update stage, by case on the first
attempt and the retry guard. -/
theorem ddbStage_update_cases (env : HandlerEnv) (fid? : Option String)
    (key : String) (a : Analysis) (h : truthyStr fid? = true) :
    (env.update1 = .ok () →
      ddbStage env fid? key a = (.ok a, [updEffOf env (fid?.getD "") a])) ∧
    (∀ m, env.update1 = .error m → isValidationClass m = true → env.update2 = .ok () →
      ddbStage env fid? key a =
        (.ok a, [updEffOf env (fid?.getD "") a, updEffOf env (fid?.getD "") a])) ∧
    (∀ m m2, env.update1 = .error m → isValidationClass m = true →
      env.update2 = .error m2 →
      ddbStage env fid? key a =
        (.error m2, [updEffOf env (fid?.getD "") a, updEffOf env (fid?.getD "") a])) ∧
    (∀ m, env.update1 = .error m → isValidationClass m = false →
      ddbStage env fid? key a = (.error m, [updEffOf env (fid?.getD "") a])) := by
  refine ⟨?_, ?_, ?_, ?_⟩
  · intro h1
    simp [ddbStage, h, h1]
  · intro m h1 hv h2
    simp [ddbStage, h, h1, hv, h2]
  · intro m m2 h1 hv h2
    simp [ddbStage, h, h1, hv, h2]
  · intro m h1 hv
    simp [ddbStage, h, h1, hv]

/-- A successful metadata stage returns exactly the analysis it was given. -/
theorem ddbStage_ok_val (env : HandlerEnv) (fid? : Option String) (key : String)
    (a a2 : Analysis) (tr2 : List Eff)
    (h : ddbStage env fid? key a = (.ok a2, tr2)) : a2 = a := by
  by_cases htr : truthyStr fid? = true
  · rcases h1 : env.update1 with m | u
    · by_cases hv : isValidationClass m = true
      · rcases h2 : env.update2 with m2 | u2 <;>
          simp_all [ddbStage, htr, h1, hv, h2]
      · simp_all [ddbStage, htr, h1, hv]
    · simp_all [ddbStage, htr, h1]
  · rcases hpi : env.putItem with m | u <;> simp_all [ddbStage, htr, hpi]

/-- C7: with a truthy `file_id` and the stages before persistence
succeeding, a validation-class failure of the first `update_item` triggers
exactly one retry with an identical call (same key, update expression,
attribute names and attribute values); any other first-attempt error, or a
failure of the retry, escapes the update step and becomes the pipeline's
error result, while a first-attempt success means exactly one update. -/
theorem c7_update_retry (cfg : Config) (env : HandlerEnv) (ev : Event)
    (b k fid : String) (hb : ev.bucket = some b) (hk : ev.key = some k)
    (hb' : b ≠ "") (hk' : k ≠ "") (hf : ev.file_id = some fid) (hf' : fid ≠ "")
    (hd : env.download = .ok ()) (hp : env.putObject = .ok ()) :
    (env.update1 = .ok () →
      (handler cfg env ev).2.filter Eff.isUpdateItem =
        [updEffOf env fid (analysisOf cfg env k)] ∧
      (handler cfg env ev).1 = .success b k (analysisOf cfg env k)) ∧
    (∀ m, env.update1 = .error m → isValidationClass m = true →
      (handler cfg env ev).2.filter Eff.isUpdateItem =
        [updEffOf env fid (analysisOf cfg env k),
         updEffOf env fid (analysisOf cfg env k)] ∧
      (env.update2 = .ok () →
        (handler cfg env ev).1 = .success b k (analysisOf cfg env k)) ∧
      (∀ m2, env.update2 = .error m2 → (handler cfg env ev).1 = .error m2)) ∧
    (∀ m, env.update1 = .error m → isValidationClass m = false →
      (handler cfg env ev).2.filter Eff.isUpdateItem =
        [updEffOf env fid (analysisOf cfg env k)] ∧
      (handler cfg env ev).1 = .error m) := by
  have htr : truthyStr ev.file_id = true := by simp [truthyStr, hf, hf']
  obtain ⟨h1, h2⟩ := handler_shape_ok cfg env ev b k hb hk hb' hk' hd hp
  have hcases := ddbStage_update_cases env ev.file_id k (analysisOf cfg env k) htr
  refine ⟨?_, ?_, ?_⟩
  · intro h1u
    have hdd := hcases.1 h1u
    constructor
    · rw [h2, hdd]
      simp [List.filter_append, List.filter_cons, Eff.isUpdateItem, updEffOf, hf,
        (durTrace_no_store env.dur (extOf k)).2.1,
        (tempoTrace_no_store cfg env.tempo).2.1]
    · rw [h1, hdd]
  · intro m h1u hv
    refine ⟨?_, ?_, ?_⟩
    · rcases h2u : env.update2 with m2 | u2
      · have hdd := hcases.2.2.1 m m2 h1u hv h2u
        rw [h2, hdd]
        simp [List.filter_append, List.filter_cons, Eff.isUpdateItem, updEffOf, hf,
          (durTrace_no_store env.dur (extOf k)).2.1,
          (tempoTrace_no_store cfg env.tempo).2.1]
      · have hdd := hcases.2.1 m h1u hv h2u
        rw [h2, hdd]
        simp [List.filter_append, List.filter_cons, Eff.isUpdateItem, updEffOf, hf,
          (durTrace_no_store env.dur (extOf k)).2.1,
          (tempoTrace_no_store cfg env.tempo).2.1]
    · intro h2u
      have hdd := hcases.2.1 m h1u hv h2u
      rw [h1, hdd]
    · intro m2 h2u
      have hdd := hcases.2.2.1 m m2 h1u hv h2u
      rw [h1, hdd]
  · intro m h1u hv
    have hdd := hcases.2.2.2 m h1u hv
    constructor
    · rw [h2, hdd]
      simp [List.filter_append, List.filter_cons, Eff.isUpdateItem, updEffOf, hf,
        (durTrace_no_store env.dur (extOf k)).2.1,
        (tempoTrace_no_store cfg env.tempo).2.1]
    · rw [h1, hdd]

/-- Witness for C7: a first attempt failing with a validation-class message
is retried once with the identical call and the run still succeeds. -/
theorem c7_witness :
    (handler cfgA envUpdVal evA).2.filter Eff.isUpdateItem =
      [updEffOf envUpdVal "fid-1" (analysisOf cfgA envUpdVal "uploads/abc.wav"),
       updEffOf envUpdVal "fid-1" (analysisOf cfgA envUpdVal "uploads/abc.wav")] :=
  ((c7_update_retry cfgA envUpdVal evA "test-bucket" "uploads/abc.wav" "fid-1"
    rfl rfl (by decide) (by decide) rfl (by decide) rfl rfl).2.1
    "ValidationException: reserved" rfl (by decide)).1

/-- A successful fenced body yields exactly the assembled analysis, and its
trace carries exactly one artifact write, at the derived key, with JSON
content type and the serialized analysis as body. -/
theorem handlerTry_ok (cfg : Config) (env : HandlerEnv) (b k : String)
    (fid? : Option String) (a : Analysis) (tr : List Eff)
    (h : handlerTry cfg env b k fid? = (.ok a, tr)) :
    a = analysisOf cfg env k ∧
    tr.filter Eff.isPutObject =
      [Eff.putObject b (outKeyOf cfg k) (analysisToPy (analysisOf cfg env k))
        "application/json"] := by
  unfold handlerTry at h
  rcases hd : env.download with m | u <;> rw [hd] at h
  · simp at h
  · rcases hp : env.putObject with m | u2 <;> simp only [hp] at h
    · simp at h
    · rcases hdd : ddbStage env fid? k (analysisOf cfg env k) with ⟨r2, tr2⟩
      rw [hdd] at h
      rcases r2 with m | a2
      · simp at h
      · simp only [Prod.mk.injEq] at h
        obtain ⟨ha, htr⟩ := h
        have ha2 : a2 = analysisOf cfg env k :=
          ddbStage_ok_val env fid? k (analysisOf cfg env k) a2 tr2 hdd
        have ha' : a2 = a := by injection ha
        constructor
        · rw [← ha', ha2]
        · rw [← htr]
          have hnil := ddbStage_no_putObject env fid? k (analysisOf cfg env k)
          rw [hdd] at hnil
          simp [List.filter_append, List.filter_cons, Eff.isPutObject, hnil,
            (durTrace_no_store env.dur (extOf k)).2.2,
            (tempoTrace_no_store cfg env.tempo).2.2]

/-- C8: every successful run writes exactly one artifact, at
`<artifact_prefix><basename(key)>.json`, with content type
`application/json`, whose body is the JSON serialization of exactly the
assembled analysis (an object-store put, which overwrites the key). -/
theorem c8_artifact_write (cfg : Config) (env : HandlerEnv) (ev : Event)
    (b k : String) (a : Analysis) (tr : List Eff)
    (h : handler cfg env ev = (.success b k a, tr)) :
    tr.filter Eff.isPutObject =
      [Eff.putObject b (outKeyOf cfg k) (analysisToPy a) "application/json"] ∧
    a = analysisOf cfg env k := by
  rcases hbev : ev.bucket with _ | b0
  · rw [handler_missing cfg env ev (Or.inl hbev)] at h
    simp at h
  rcases hkev : ev.key with _ | k0
  · rw [handler_missing cfg env ev (Or.inr hkev)] at h
    simp at h
  by_cases hb0 : b0 = ""
  · simp [handler, hbev, hkev, truthyStr, hb0] at h
  by_cases hk0 : k0 = ""
  · simp [handler, hbev, hkev, truthyStr, hk0] at h
  rw [handler_eq cfg env ev b0 k0 hbev hkev hb0 hk0] at h
  rcases hht : handlerTry cfg env b0 k0 ev.file_id with ⟨r, tr0⟩
  rw [hht] at h
  rcases r with m | a0
  · simp at h
  · simp only [Prod.mk.injEq, HResult.success.injEq] at h
    obtain ⟨⟨hb1, hk1, ha1⟩, htr1⟩ := h
    subst hb1
    subst hk1
    subst ha1
    subst htr1
    obtain ⟨ha, hfil⟩ := handlerTry_ok cfg env b0 k0 ev.file_id a0 tr0 hht
    rw [← ha] at hfil
    exact ⟨hfil, ha⟩

/-- Witness for C8: the artifact write of the concrete all-success run. -/
theorem c8_witness :
    (handler cfgA envA evA).2.filter Eff.isPutObject =
      [Eff.putObject "test-bucket" (outKeyOf cfgA "uploads/abc.wav")
        (analysisToPy (analysisOf cfgA envA "uploads/abc.wav")) "application/json"] :=
  (c8_artifact_write cfgA envA evA "test-bucket" "uploads/abc.wav"
    (analysisOf cfgA envA "uploads/abc.wav") ((handler cfgA envA evA).2)
    (by decide)).1

/-- C9: `analyzed_at` is set only by the pipeline's update step — the
degraded insert item and the item built by `save_metadata` both omit it —
and the value the pipeline sets is the offset-free ISO-8601 UTC instant
followed by a literal `Z`, containing no `'+'` (no numeric offset). -/
theorem c9_analyzed_at :
    (∀ key a, (insertItemOf key a).hasKeyStr "analyzed_at" = false) ∧
    (∀ uuid fn sk d t fi,
      (save_metadata_item uuid fn sk d t fi).hasKeyStr "analyzed_at" = false) ∧
    (∀ env fid a,
      updEffOf env fid a = Eff.updateItem "file_id" fid
        "SET #duration = :d, #tempo = :t, #analyzed_at = :a"
        [("#duration", "duration"), ("#tempo", "tempo"), ("#analyzed_at", "analyzed_at")]
        [(":d", .pDecimal a.duration), (":t", .pDecimal a.tempo),
         (":a", .pStr (analyzedAtStr env.now))]) ∧
    (∀ dt, ∃ p, (analyzedAtStr dt).data = p ++ ['Z'] ∧ '+' ∉ p) := by
  refine ⟨?_, ?_, ?_, ?_⟩
  · intro key a
    simp [insertItemOf, kvsOf, PyVal.hasKeyStr, PyKVs.hasKeyStr]
  · intro uuid fn sk d t fi
    simp [save_metadata_item, _clean_ddb, PyVal.hasKeyStr, cleanKVs_hasKeyStr,
      kvsOf, PyKVs.hasKeyStr]
  · intro env fid a
    rfl
  · intro dt
    exact ⟨isoBase dt, analyzedAtStr_data dt, plus_not_mem_isoBase dt⟩

/-- C10 counterexample: a float used as a dict key is not cleaned —
`_clean_ddb` returns the value unchanged and a float survives, refuting
"replaces every float occurring anywhere in the value". -/
theorem c10_counterexample :
    _clean_ddb (.pDict (.cons (.pFloat (1 / 2)) .pNone .nil)) =
      .pDict (.cons (.pFloat (1 / 2)) .pNone .nil) ∧
    PyVal.hasFloat (_clean_ddb (.pDict (.cons (.pFloat (1 / 2)) .pNone .nil))) = true := by
  exact ⟨rfl, by decide⟩

/-- The normalised `duration`/`tempo` argument of `save_metadata` has
float-free dict keys whenever the argument itself does. -/
theorem savedField_floatFreeKeys (o : Option PyVal)
    (h : ∀ v, o = some v → v.floatFreeKeys = true) :
    (savedField o).floatFreeKeys = true := by
  rcases o with _ | v
  · simp [savedField, PyVal.floatFreeKeys]
  · have hv := h v rfl
    rcases v <;> simp_all [savedField, PyVal.floatFreeKeys]

/-- C10 (amended): `_clean_ddb` replaces every float in non-key position by
`Decimal(str(x))`, leaves float-free values (hence structure and non-float
leaves) unchanged, but does not recurse into dict keys; consequently
`save_metadata` and `update_metadata` never send a raw float to the store
whenever their arguments carry no float inside a dict key — in particular
for the float/`None`/scalar arguments they receive in this codebase. -/
theorem c10_clean_ddb :
    (∀ v : PyVal, v.floatFreeKeys = true → (_clean_ddb v).hasFloat = false) ∧
    (∀ v : PyVal, v.hasFloat = false → _clean_ddb v = v) ∧
    (∀ x : Rat, _clean_ddb (.pFloat x) = .pDecimal x) ∧
    (∀ uuid fn sk (d t : Option PyVal) fi,
      (∀ v, d = some v → v.floatFreeKeys = true) →
      (∀ v, t = some v → v.floatFreeKeys = true) →
      (save_metadata_item uuid fn sk d t fi).hasFloat = false) ∧
    (∀ fields : List (String × PyVal),
      (∀ kv ∈ fields, (kv.2).floatFreeKeys = true) →
      ∀ kv ∈ updateExprValues fields, (kv.2).hasFloat = false) := by
  refine ⟨clean_ddb_noFloat, clean_ddb_id, fun x => rfl, ?_, ?_⟩
  · intro uuid fn sk d t fi hd ht
    apply clean_ddb_noFloat
    simp [kvsOf, PyVal.floatFreeKeys, PyKVs.floatFreeKeys, PyVal.hasFloat,
      savedField_floatFreeKeys d hd, savedField_floatFreeKeys t ht]
  · intro fields h kv hkv
    simp only [updateExprValues, List.mem_map] at hkv
    obtain ⟨kv0, h0, heq⟩ := hkv
    have := clean_ddb_noFloat kv0.2 (h kv0 h0)
    rw [← heq]
    exact this

/-- Witness for C10 (amended): cleaning a bare float removes the float. -/
theorem c10_witness : (_clean_ddb (.pFloat 1)).hasFloat = false :=
  c10_clean_ddb.1 (.pFloat 1) rfl

end ToneSugar
